import Mathlib

/-!
Shallow embedding of `Api.prototype.request` from the workfront-api
repository (file `src/unnamed/part_000`), together with proofs of the
specification claims about it.

Modelling conventions:
* JavaScript objects with string keys are association lists in insertion
  order with unique keys maintained by the assignment operation `jsSet`
  (an assignment to an existing key overwrites in place, a new key is
  appended), matching JS property semantics for non-integer-like keys.
* `util._extend(origin, add)` iterates `Object.keys(add)` from the last
  key to the first (`while (i--)`), assigning each into `origin`; this is
  `extendObj` below.
* `querystring.stringify` is modelled byte-for-byte: each key and value
  is percent-encoded over its UTF-8 bytes with Node's unescaped set
  (alphanumerics and `! - . _ ~ * ( )` and the apostrophe, code 39),
  pairs are joined with `=` and `&`.
* JavaScript string `.length` counts UTF-16 code units; for the ASCII
  output of `querystring.stringify` this coincides with `String.length`
  (code points) and with the UTF-8 byte size, which we prove.
* `JSON.parse` is modelled by the executable parser `jsonParse` over a
  `Js` value type; JS truthiness of envelope fields is `truthy` /
  `truthyO` (`none` plays the role of `undefined`).
* The promise returned by the server branch settles with the first call
  to `resolve`/`reject`; the transport's event stream (data chunks, end,
  error) is a `List Ev` and `dispatchOutcome` is the first settlement
  produced while folding over it.
-/

/-- JSON values as produced by `JSON.parse`.  A number is stored exactly
as mantissa and decimal exponent: `num m e` denotes `m * 10 ^ e`. -/
inductive Js where
  | null
  | bool (b : Bool)
  | num (m : Int) (e : Int)
  | str (s : String)
  | arr (elems : List Js)
  | obj (fields : List (String × Js))
deriving Repr, BEq

/-- Read a property of a JS object: association-list lookup returning the
first binding (objects built by `jsSet` have unique keys; for objects
coming from `JSON.parse` with duplicate keys the last binding wins, which
`jsonParse` realises by overwriting during parsing). -/
def jsGet : List (String × α) → String → Option α
  | [], _ => none
  | (k0, v) :: rest, k => if k0 = k then some v else jsGet rest k

/-- JS property assignment `o[k] = v`: overwrite the existing binding in
place, or append a new one. -/
def jsSet : List (String × α) → String → α → List (String × α)
  | [], k, v => [(k, v)]
  | (k0, v0) :: rest, k, v =>
      if k0 = k then (k0, v) :: rest else (k0, v0) :: jsSet rest k v

/-- Node's `util._extend(origin, add)`: assign every key of `add` into
`origin`, iterating the keys of `add` from last to first. -/
def extendObj (origin add : List (String × α)) : List (String × α) :=
  add.reverse.foldl (fun o kv => jsSet o kv.1 kv.2) origin

/-- The fixed HTTP method enumeration `Api.Methods`. -/
inductive Method where
  | GET | POST | PUT | DELETE
deriving Repr, DecidableEq, BEq

/-- `requestHasData` from the source: every method other than GET and PUT
carries a request body. -/
def requestHasData (m : Method) : Bool :=
  !(m == Method.GET) && !(m == Method.PUT)

/-- The possible JS values of the `fields` argument: absent/null, a bare
string, or an array of strings. -/
inductive FieldsArg where
  | noneF
  | strF (s : String)
  | arrF (l : List String)
deriving Repr, DecidableEq

/-- Lines 31-34 of the source: `fields = fields || []` (note that the
empty string is falsy, so it also becomes `[]`), then a bare string is
wrapped as a one-element array. -/
def normFields : FieldsArg → List String
  | .noneF => []
  | .strF s => if s = "" then [] else [s]
  | .arrF l => l

/-- Node `querystring.escape`: true for the characters left unescaped,
namely alphanumerics and `! - . _ ~ * ( )` and the apostrophe (39). -/
def qsUnescaped (n : Nat) : Bool :=
  (48 ≤ n && n ≤ 57) || (65 ≤ n && n ≤ 90) || (97 ≤ n && n ≤ 122) ||
  n == 33 || n == 39 || n == 40 || n == 41 || n == 42 ||
  n == 45 || n == 46 || n == 95 || n == 126

/-- The UTF-8 bytes of a single code point. -/
def utf8Bytes (n : Nat) : List Nat :=
  if n < 0x80 then [n]
  else if n < 0x800 then [0xC0 + n / 0x40, 0x80 + n % 0x40]
  else if n < 0x10000 then
    [0xE0 + n / 0x1000, 0x80 + (n / 0x40) % 0x40, 0x80 + n % 0x40]
  else
    [0xF0 + n / 0x40000, 0x80 + (n / 0x1000) % 0x40,
     0x80 + (n / 0x40) % 0x40, 0x80 + n % 0x40]

/-- Uppercase hex digit for a nibble. -/
def hexDigit (d : Nat) : Char :=
  if d < 10 then Char.ofNat (48 + d) else Char.ofNat (55 + d)

/-- Percent-encode one byte as `%XY` (uppercase hex). -/
def pctByte (b : Nat) : List Char :=
  [Char.ofNat 37, hexDigit (b / 16 % 16), hexDigit (b % 16)]

/-- Node `querystring.escape` on one character. -/
def qsEscapeChar (c : Char) : List Char :=
  if qsUnescaped c.toNat then [c]
  else (utf8Bytes c.toNat).flatMap pctByte

/-- Node `querystring.escape` on a string. -/
def qsEscape (s : String) : String :=
  ⟨s.data.flatMap qsEscapeChar⟩

/-- Node `querystring.stringify` on a string-valued object: the escaped
`key=value` pairs joined with `&`. -/
def qsStringify : List (String × String) → String
  | [] => ""
  | [p] => qsEscape p.1 ++ "=" ++ qsEscape p.2
  | p :: q :: rest => qsEscape p.1 ++ "=" ++ qsEscape p.2 ++ "&" ++ qsStringify (q :: rest)

/-- A header value: JS strings or numbers (`Content-Length` is assigned
the number `paramsQS.length`). -/
inductive HVal where
  | str (s : String)
  | num (n : Nat)
deriving Repr, DecidableEq

/-- The transport configuration `this.httpOptions` (the fields the
dispatch routine reads; the remaining configuration fields are copied
shallowly in exactly the same way as `path`). -/
structure HttpOptions where
  path : String
  headers : List (String × HVal)
deriving Repr, DecidableEq

/-- `path.indexOf(chr 47) === 0`: the first occurrence of `/` is at
position 0, i.e. the first character is `/` (code 47). -/
def startsWithSlash (p : String) : Bool :=
  match p.data with
  | [] => false
  | c :: _ => c.toNat == 47

/-- Lines 42-47 of the source: absolute paths are concatenated directly
onto the configured base path, others get exactly one `/` inserted. -/
def buildPath (basePath p : String) : String :=
  if startsWithSlash p then basePath ++ p else basePath ++ "/" ++ p

/-- Lines 36-37 and 49-51 of the source: the parameter map that gets
serialized.  `params = params || {}` (so `none` becomes the empty
object), then `util._extend(params, this.httpParams)`, then, after the
options are built, `params.fields = fields.join()` when the normalized
field list is non-empty. -/
def effectiveParams (httpParams : List (String × String))
    (params0 : Option (List (String × String))) (fields0 : FieldsArg) :
    List (String × String) :=
  let flds := normFields fields0
  let params := extendObj (params0.getD []) httpParams
  if flds.length ≠ 0 then jsSet params "fields" (String.intercalate "," flds)
  else params

/-- The serialized query/body string `paramsQS` of a call. -/
def serializedParams (httpParams : List (String × String))
    (params0 : Option (List (String × String))) (fields0 : FieldsArg) : String :=
  qsStringify (effectiveParams httpParams params0 fields0)

/-- The request descriptor handed to `httpTransport.request`, plus the
body written by `request.write` (lines 129-131): `some paramsQS` exactly
when the serialized string is non-empty and the method carries data. -/
structure BuiltRequest where
  method : Method
  path : String
  headers : List (String × HVal)
  body : Option String
deriving Repr, DecidableEq

/-- Lines 30-62 and 129-131 of the source: build the outgoing request.
Returns the built request together with the post-call value of
`this.httpOptions`.  The copy `util._extend(options, this.httpOptions)`
is shallow, so `options.headers` and `this.httpOptions.headers` are the
same object: the header assignments of lines 56-57 are therefore visible
through `this.httpOptions` after the call, which the second component
records. -/
def requestBuild (httpParams : List (String × String)) (ho : HttpOptions)
    (isBrowser : Bool) (path : String)
    (params0 : Option (List (String × String))) (fields0 : FieldsArg)
    (method : Method) : BuiltRequest × HttpOptions :=
  let optPath := buildPath ho.path path
  let params := effectiveParams httpParams params0 fields0
  let paramsQS := qsStringify params
  let hasData := requestHasData method
  let headers1 :=
    if paramsQS ≠ "" ∧ hasData = true then
      jsSet (jsSet ho.headers "Content-Type"
          (HVal.str "application/x-www-form-urlencoded"))
        "Content-Length" (HVal.num paramsQS.length)
    else ho.headers
  let finalPath :=
    if paramsQS ≠ "" ∧ hasData = false ∧ isBrowser = false then
      optPath ++ "?" ++ paramsQS
    else optPath
  (⟨method, finalPath, headers1,
     if paramsQS ≠ "" ∧ hasData = true then some paramsQS else none⟩,
   ⟨ho.path, headers1⟩)

/-- JSON whitespace (space, tab, line feed, carriage return). -/
def isJsonWs (c : Char) : Bool :=
  c.toNat == 32 || c.toNat == 9 || c.toNat == 10 || c.toNat == 13

/-- Drop leading JSON whitespace. -/
def skipWs : List Char → List Char
  | [] => []
  | c :: cs => if isJsonWs c then skipWs cs else c :: cs

/-- ASCII decimal digit. -/
def isDigitCh (c : Char) : Bool :=
  48 ≤ c.toNat && c.toNat ≤ 57

/-- Value of a hex digit, if any. -/
def hexVal (c : Char) : Option Nat :=
  if 48 ≤ c.toNat && c.toNat ≤ 57 then some (c.toNat - 48)
  else if 65 ≤ c.toNat && c.toNat ≤ 70 then some (c.toNat - 55)
  else if 97 ≤ c.toNat && c.toNat ≤ 102 then some (c.toNat - 87)
  else none

/-- Four hex digits (the payload of a `\u` escape). -/
def parseHex4 : List Char → Option (Nat × List Char)
  | a :: b :: c :: d :: rest =>
    match hexVal a, hexVal b, hexVal c, hexVal d with
    | some x, some y, some z, some w => some (x * 4096 + y * 256 + z * 16 + w, rest)
    | _, _, _, _ => none
  | _ => none

/-- The character a JSON escape letter stands for. -/
def escChar (n : Nat) : Option Char :=
  if n == 34 || n == 92 || n == 47 then some (Char.ofNat n)
  else if n == 98 then some (Char.ofNat 8)
  else if n == 102 then some (Char.ofNat 12)
  else if n == 110 then some (Char.ofNat 10)
  else if n == 114 then some (Char.ofNat 13)
  else if n == 116 then some (Char.ofNat 9)
  else none

/-- Body of a JSON string literal, after the opening quote; returns the
decoded string and the input after the closing quote.  (`\u` escapes
denoting surrogate halves are approximated by `Char.ofNat`.) -/
def parseStrBody : Nat → List Char → List Char → Option (String × List Char)
  | 0, _, _ => none
  | fuel + 1, acc, cs =>
    match cs with
    | [] => none
    | c :: rest =>
      if c.toNat == 34 then some (⟨acc.reverse⟩, rest)
      else if c.toNat == 92 then
        match rest with
        | [] => none
        | e :: rest2 =>
          if e.toNat == 117 then
            match parseHex4 rest2 with
            | some (n, rest3) => parseStrBody fuel (Char.ofNat n :: acc) rest3
            | none => none
          else
            match escChar e.toNat with
            | some d => parseStrBody fuel (d :: acc) rest2
            | none => none
      else if c.toNat < 32 then none
      else parseStrBody fuel (c :: acc) rest

/-- Decimal digits to a natural number. -/
def digitsToNat (ds : List Char) : Nat :=
  ds.foldl (fun a c => a * 10 + (c.toNat - 48)) 0

/-- Optional fraction part `.[0-9]+`; returns the fraction digits. -/
def parseFrac : List Char → Option (List Char × List Char)
  | [] => some ([], [])
  | c :: r =>
    if c.toNat == 46 then
      let p := r.span isDigitCh
      if p.1.isEmpty then none else some (p.1, p.2)
    else some ([], c :: r)

/-- Optional exponent part `[eE][+-]?[0-9]+`; returns the exponent. -/
def parseExpPart : List Char → Option (Int × List Char)
  | [] => some (0, [])
  | c :: r =>
    if c.toNat == 101 || c.toNat == 69 then
      let sgn : Bool × List Char :=
        match r with
        | d :: r2 =>
          if d.toNat == 45 then (true, r2)
          else if d.toNat == 43 then (false, r2)
          else (false, d :: r2)
        | [] => (false, [])
      let p := sgn.2.span isDigitCh
      if p.1.isEmpty then none
      else some ((if sgn.1 then -(digitsToNat p.1 : Int) else (digitsToNat p.1 : Int)), p.2)
    else some (0, c :: r)

/-- A JSON number literal `-?(0|[1-9][0-9]*)(\.[0-9]+)?([eE][+-]?[0-9]+)?`,
represented exactly as mantissa and decimal exponent. -/
def parseNumber (cs : List Char) : Option (Js × List Char) :=
  let sgn : Bool × List Char :=
    match cs with
    | c :: r => if c.toNat == 45 then (true, r) else (false, cs)
    | [] => (false, [])
  let ip := sgn.2.span isDigitCh
  if ip.1.isEmpty then none
  else if ip.1.length > 1 && (ip.1.headD (Char.ofNat 32)).toNat == 48 then none
  else
    match parseFrac ip.2 with
    | none => none
    | some (fds, r2) =>
      match parseExpPart r2 with
      | none => none
      | some (ex, r3) =>
        let mant : Nat := digitsToNat (ip.1 ++ fds)
        some (.num (if sgn.1 then -(mant : Int) else (mant : Int))
                   (ex - (fds.length : Int)), r3)

mutual

/-- `JSON.parse` core: one JSON value, by fuel recursion. -/
def parseVal : Nat → List Char → Option (Js × List Char)
  | 0, _ => none
  | fuel + 1, cs =>
    match skipWs cs with
    | [] => none
    | c :: rest =>
      if c.toNat == 110 then
        match rest with
        | u :: l1 :: l2 :: r =>
          if u.toNat == 117 && l1.toNat == 108 && l2.toNat == 108 then
            some (.null, r)
          else none
        | _ => none
      else if c.toNat == 116 then
        match rest with
        | r1 :: u :: e :: r =>
          if r1.toNat == 114 && u.toNat == 117 && e.toNat == 101 then
            some (.bool true, r)
          else none
        | _ => none
      else if c.toNat == 102 then
        match rest with
        | a :: l :: s :: e :: r =>
          if a.toNat == 97 && l.toNat == 108 && s.toNat == 115 && e.toNat == 101 then
            some (.bool false, r)
          else none
        | _ => none
      else if c.toNat == 34 then
        match parseStrBody (rest.length + 1) [] rest with
        | some (s, r) => some (.str s, r)
        | none => none
      else if c.toNat == 123 then
        match skipWs rest with
        | c2 :: r2 =>
          if c2.toNat == 125 then some (.obj [], r2)
          else parseMembers fuel (c2 :: r2) []
        | [] => none
      else if c.toNat == 91 then
        match skipWs rest with
        | c2 :: r2 =>
          if c2.toNat == 93 then some (.arr [], r2)
          else parseElems fuel (c2 :: r2) []
        | [] => none
      else if c.toNat == 45 || isDigitCh c then parseNumber (c :: rest)
      else none

/-- Members of a JSON object after the opening brace (non-empty case).
A duplicate key overwrites the earlier binding, as property assignment
does in `JSON.parse`. -/
def parseMembers : Nat → List Char → List (String × Js) → Option (Js × List Char)
  | 0, _, _ => none
  | fuel + 1, cs, acc =>
    match skipWs cs with
    | [] => none
    | c :: rest =>
      if c.toNat == 34 then
        match parseStrBody (rest.length + 1) [] rest with
        | none => none
        | some (k, r1) =>
          match skipWs r1 with
          | [] => none
          | c2 :: r2 =>
            if c2.toNat == 58 then
              match parseVal fuel r2 with
              | none => none
              | some (v, r3) =>
                match skipWs r3 with
                | [] => none
                | c3 :: r4 =>
                  if c3.toNat == 44 then parseMembers fuel r4 (jsSet acc k v)
                  else if c3.toNat == 125 then some (.obj (jsSet acc k v), r4)
                  else none
            else none
      else none

/-- Elements of a JSON array after the opening bracket (non-empty case). -/
def parseElems : Nat → List Char → List Js → Option (Js × List Char)
  | 0, _, _ => none
  | fuel + 1, cs, acc =>
    match parseVal fuel cs with
    | none => none
    | some (v, r) =>
      match skipWs r with
      | [] => none
      | c :: r2 =>
        if c.toNat == 44 then parseElems fuel r2 (acc ++ [v])
        else if c.toNat == 93 then some (.arr (acc ++ [v]), r2)
        else none

end

/-- `JSON.parse`: a complete JSON text with nothing but whitespace after
the value. -/
def jsonParse (s : String) : Option Js :=
  match parseVal (s.length + 1) s.data with
  | some (v, rest) => if skipWs rest = [] then some v else none
  | none => none

/-- Property access `j.k` on a parsed value: `none` plays the role of
`undefined` (also for access on a non-object). -/
def jsField (j : Js) (k : String) : Option Js :=
  match j with
  | .obj fs => jsGet fs k
  | _ => none

/-- JS truthiness of a parsed JSON value.  A number is truthy exactly
when its mantissa is non-zero (we ignore double rounding of minuscule
magnitudes, irrelevant to the envelopes at hand). -/
def truthy : Js → Bool
  | .null => false
  | .bool b => b
  | .num m _ => m != 0
  | .str s => s != ""
  | .arr _ => true
  | .obj _ => true

/-- Truthiness with `undefined` (`none`) being falsy. -/
def truthyO : Option Js → Bool
  | none => false
  | some j => truthy j

/-- A settlement of the returned promise; the payload is a JS value or
`undefined` (`none`). -/
inductive Outcome where
  | resolve (v : Option Js)
  | reject (v : Option Js)
deriving Repr

/-- Lines 112-127 of the source: the `end` handler on the accumulated
body.  A parse failure rejects with the raw body text; a truthy `error`
field rejects with the whole parsed envelope; otherwise the promise
resolves with the envelope's `data` field. -/
def onEnd (body : String) : Outcome :=
  match jsonParse body with
  | none => .reject (some (.str body))
  | some data =>
    if truthyO (jsField data "error") then .reject (some data)
    else .resolve (jsField data "data")

/-- The transport events a server-side dispatch can observe: a response
data chunk, the end of the response stream, or a transport error. -/
inductive Ev where
  | chunk (s : String)
  | done
  | fail (e : Js)

/-- Every call to `resolve`/`reject` made while the events fire, in
order, threading the accumulated body text (lines 105-133). -/
def settleAttempts : List Ev → String → List Outcome
  | [], _ => []
  | .chunk s :: evs, body => settleAttempts evs (body ++ s)
  | .done :: evs, body => onEnd body :: settleAttempts evs body
  | .fail e :: evs, body => Outcome.reject (some e) :: settleAttempts evs body

/-- The settlement of the promise returned by the server branch: a
promise settles with the first `resolve`/`reject` call and ignores the
rest. -/
def dispatchOutcome (evs : List Ev) : Option Outcome :=
  (settleAttempts evs "").head?

/-- Lines 89-96 of the source: the browser/JSONP global callback.  A
truthy `error` field rejects with that field's value; otherwise the
promise resolves with the `data` field. -/
def jsonpCallback (jsonpData : Js) : Outcome :=
  if truthyO (jsField jsonpData "error") then .reject (jsField jsonpData "error")
  else .resolve (jsField jsonpData "data")

/-! ### Association-list lemmas -/

theorem jsGet_jsSet (o : List (String × α)) (k k2 : String) (v : α) :
    jsGet (jsSet o k v) k2 = if k = k2 then some v else jsGet o k2 := by
  induction o with
  | nil =>
    by_cases h : k = k2 <;> simp [jsSet, jsGet, h]
  | cons p rest ih =>
    obtain ⟨k0, v0⟩ := p
    by_cases h0 : k0 = k <;> by_cases h2 : k = k2 <;> by_cases h02 : k0 = k2 <;>
      simp_all [jsSet, jsGet]

theorem jsGet_append (l1 l2 : List (String × α)) (k : String) :
    jsGet (l1 ++ l2) k =
      match jsGet l1 k with
      | some v => some v
      | none => jsGet l2 k := by
  induction l1 with
  | nil => simp [jsGet]
  | cons p rest ih =>
    by_cases h : p.1 = k <;> simp [jsGet, h, ih]

theorem jsGet_foldl_jsSet (l : List (String × α)) (o : List (String × α)) (k : String) :
    jsGet (l.foldl (fun acc kv => jsSet acc kv.1 kv.2) o) k =
      match jsGet l.reverse k with
      | some v => some v
      | none => jsGet o k := by
  induction l generalizing o with
  | nil => simp [jsGet]
  | cons p t ih =>
    simp only [List.foldl_cons, List.reverse_cons]
    rw [ih, jsGet_append]
    cases hh : jsGet t.reverse k with
    | some v => simp
    | none =>
      by_cases h : p.1 = k <;> simp [jsGet, jsGet_jsSet, h]

/-- The observable content of `util._extend(origin, add)`: a key found in
`add` gets the value of its first binding there, every other key keeps the
value it had in `origin`. -/
theorem jsGet_extendObj (origin add : List (String × α)) (k : String) :
    jsGet (extendObj origin add) k =
      match jsGet add k with
      | some v => some v
      | none => jsGet origin k := by
  unfold extendObj
  rw [jsGet_foldl_jsSet, List.reverse_reverse]

/-! ### The serialized query string is ASCII, so its UTF-16 length (JS
`.length`), its code-point count and its UTF-8 byte size coincide. -/

theorem ule_of_toNat_le {n : UInt32} {m : Nat} (h : m < UInt32.size) (h2 : n.toNat ≤ m) :
    n ≤ UInt32.ofNat m := by
  simp only [UInt32.le_def, BitVec.le_def, UInt32.toBitVec_eq_of_lt h]
  simpa [UInt32.toNat] using h2

theorem utf8Size_of_ascii (c : Char) (h : c.toNat < 128) : c.utf8Size = 1 := by
  have : c.val ≤ 0x7F := ule_of_toNat_le (by norm_num) (Nat.le_of_lt_succ h)
  simp [Char.utf8Size, this]

theorem hexDigit_ascii : ∀ d, d < 16 → (hexDigit d).toNat < 128 := by decide

theorem pctByte_ascii (b : Nat) : ∀ c ∈ pctByte b, c.toNat < 128 := by
  intro c hc
  simp only [pctByte, List.mem_cons, List.not_mem_nil, or_false] at hc
  rcases hc with h | h | h <;> subst h
  · decide
  · exact hexDigit_ascii _ (Nat.mod_lt _ (by decide))
  · exact hexDigit_ascii _ (Nat.mod_lt _ (by decide))

theorem qsUnescaped_ascii {n : Nat} (h : qsUnescaped n = true) : n < 128 := by
  simp only [qsUnescaped, Bool.or_eq_true, Bool.and_eq_true, decide_eq_true_eq,
    beq_iff_eq] at h
  omega

theorem qsEscapeChar_ascii (c : Char) : ∀ d ∈ qsEscapeChar c, d.toNat < 128 := by
  intro d hd
  unfold qsEscapeChar at hd
  by_cases h : qsUnescaped c.toNat
  · rw [if_pos h] at hd
    simp only [List.mem_singleton] at hd
    subst hd
    exact qsUnescaped_ascii h
  · rw [if_neg h] at hd
    rcases List.mem_flatMap.mp hd with ⟨b, _, hmem⟩
    exact pctByte_ascii b d hmem

theorem qsEscape_ascii (s : String) : ∀ c ∈ (qsEscape s).data, c.toNat < 128 := by
  intro c hc
  rcases List.mem_flatMap.mp hc with ⟨b, _, hmem⟩
  exact qsEscapeChar_ascii b c hmem

theorem qsStringify_ascii (ps : List (String × String)) :
    ∀ c ∈ (qsStringify ps).data, c.toNat < 128 := by
  induction ps with
  | nil => intro c hc; simp [qsStringify] at hc
  | cons p rest ih =>
    intro c hc
    cases rest with
    | nil =>
      simp only [qsStringify, String.data_append] at hc
      rcases List.mem_append.mp hc with hh | hh
      · rcases List.mem_append.mp hh with hh2 | hh2
        · exact qsEscape_ascii _ c hh2
        · simp only [List.mem_singleton, show ("=" : String).data = [Char.ofNat 61] from rfl] at hh2
          subst hh2; decide
      · exact qsEscape_ascii _ c hh
    | cons q rest2 =>
      simp only [qsStringify, String.data_append] at hc
      rcases List.mem_append.mp hc with hh | hh
      · rcases List.mem_append.mp hh with hh1 | hh1
        · rcases List.mem_append.mp hh1 with hh2 | hh2
          · rcases List.mem_append.mp hh2 with hh3 | hh3
            · exact qsEscape_ascii _ c hh3
            · simp only [List.mem_singleton,
                show ("=" : String).data = [Char.ofNat 61] from rfl] at hh3
              subst hh3; decide
          · exact qsEscape_ascii _ c hh2
        · simp only [List.mem_singleton,
            show ("&" : String).data = [Char.ofNat 38] from rfl] at hh1
          subst hh1; decide
      · exact ih c hh

theorem ascii_utf8ByteSize {s : String} (h : ∀ c ∈ s.data, c.toNat < 128) :
    s.utf8ByteSize = s.length := by
  obtain ⟨l⟩ := s
  simp only [String.utf8ByteSize_mk, String.length_mk]
  induction l with
  | nil => rfl
  | cons c cs ih =>
    have hc : c.toNat < 128 := h c (List.mem_cons_self _ _)
    have hcs : ∀ d ∈ cs, d.toNat < 128 := fun d hd => h d (List.mem_cons_of_mem _ hd)
    simp [String.utf8Len_cons, utf8Size_of_ascii c hc, ih hcs, Nat.add_comm]

theorem qsStringify_byteSize (ps : List (String × String)) :
    (qsStringify ps).utf8ByteSize = (qsStringify ps).length :=
  ascii_utf8ByteSize (qsStringify_ascii ps)

/-! ### Event-stream lemmas -/

/-- The body text accumulated by the `data` handler over a full chunk
list, starting from the empty string. -/
def chunksBody (chunks : List String) : String :=
  chunks.foldl (fun a s => a ++ s) ""

/-- The body text accumulated after a list of events. -/
def bodyAfter : List Ev → String → String
  | [], b => b
  | .chunk s :: evs, b => bodyAfter evs (b ++ s)
  | .done :: evs, b => bodyAfter evs b
  | .fail _ :: evs, b => bodyAfter evs b

theorem settleAttempts_append (l1 l2 : List Ev) (body : String) :
    settleAttempts (l1 ++ l2) body =
      settleAttempts l1 body ++ settleAttempts l2 (bodyAfter l1 body) := by
  induction l1 generalizing body with
  | nil => simp [settleAttempts, bodyAfter]
  | cons ev t ih => cases ev <;> simp [settleAttempts, bodyAfter, ih]

theorem settleAttempts_chunks_done (chunks : List String) (body : String) :
    settleAttempts (chunks.map Ev.chunk ++ [Ev.done]) body =
      [onEnd (chunks.foldl (fun a s => a ++ s) body)] := by
  induction chunks generalizing body with
  | nil => simp [settleAttempts]
  | cons c t ih => simp [settleAttempts, ih]

/-- A response delivered as chunks followed by stream end settles the
promise with the `end` handler applied to the concatenated body. -/
theorem dispatch_chunks_done (chunks : List String) :
    dispatchOutcome (chunks.map Ev.chunk ++ [Ev.done]) = some (onEnd (chunksBody chunks)) := by
  simp [dispatchOutcome, settleAttempts_chunks_done, chunksBody]

/-! ### Claims -/

/-- C1, counterexample: with caller params `a = 1` and instance defaults
`a = 2`, the merged map that gets serialized carries `a = 2`: the
instance-level default, not the explicit caller entry, wins, because
`util._extend(params, this.httpParams)` copies the defaults over the
caller's entries. -/
theorem c1_counterexample :
    jsGet (extendObj [("a", "1")] [("a", "2")]) "a" = some "2" ∧
    jsGet (extendObj [("a", "1")] [("a", "2")]) "a" ≠ some "1" := by
  constructor
  · rfl
  · intro h
    have := Option.some.inj h
    simp at this

/-- C1 (amended): the merged parameter map is built by copying the
instance-level default parameters (`this.httpParams`) into the
caller-supplied `params` object; a key present in `this.httpParams` ends
up with its default value, overriding a caller-supplied entry sharing
that key, and every other key keeps its caller-supplied value. -/
theorem c1_merge_defaults_win (params httpParams : List (String × String)) (k : String) :
    jsGet (extendObj params httpParams) k =
      match jsGet httpParams k with
      | some v => some v
      | none => jsGet params k := by
  unfold extendObj
  rw [jsGet_foldl_jsSet, List.reverse_reverse]
  cases jsGet httpParams k <;> rfl

/-- C4: the request path before the query string is
`this.httpOptions.path ++ path` when `path` starts with `/`, and
`this.httpOptions.path ++ "/" ++ path` otherwise; the path of the built
request is exactly that, possibly followed by `?` and a query string. -/
theorem c4_path_join (hp : List (String × String)) (ho : HttpOptions) (br : Bool)
    (p : String) (ps : Option (List (String × String))) (fs : FieldsArg) (m : Method) :
    (startsWithSlash p = true → buildPath ho.path p = ho.path ++ p) ∧
    (startsWithSlash p = false → buildPath ho.path p = ho.path ++ "/" ++ p) ∧
    ((requestBuild hp ho br p ps fs m).1.path = buildPath ho.path p ∨
      ∃ qs, (requestBuild hp ho br p ps fs m).1.path = buildPath ho.path p ++ "?" ++ qs) := by
  refine ⟨fun h => by simp [buildPath, h], fun h => by simp [buildPath, h], ?_⟩
  by_cases hc : qsStringify (effectiveParams hp ps fs) ≠ "" ∧
      requestHasData m = false ∧ br = false
  · exact Or.inr ⟨qsStringify (effectiveParams hp ps fs), by simp [requestBuild, hc]⟩
  · exact Or.inl (by simp [requestBuild, hc])

/-- C4, witness: at `/attask` the base path is prepended with no extra
separator, at `attask` exactly one separator is inserted. -/
theorem c4_witness :
    buildPath "/api" "/attask" = "/api" ++ "/attask" ∧
    buildPath "/api" "attask" = "/api" ++ "/" ++ "attask" :=
  ⟨(c4_path_join [] ⟨"/api", []⟩ false "/attask" none FieldsArg.noneF Method.GET).1 (by decide),
   (c4_path_join [] ⟨"/api", []⟩ false "attask" none FieldsArg.noneF Method.GET).2.1 (by decide)⟩

/-- C3, counterexample: a POST with one parameter against a configuration
with an empty headers object leaves `this.httpOptions` changed after the
call: because `util._extend(options, this.httpOptions)` copies the
`headers` reference, the assignments of lines 56-57 land in the shared
headers object, which now carries `Content-Type` and `Content-Length`. -/
theorem c3_counterexample :
    (requestBuild [] ⟨"/api", []⟩ false "x" (some [("a", "1")])
        FieldsArg.noneF Method.POST).2 ≠ (⟨"/api", []⟩ : HttpOptions) ∧
    (requestBuild [] ⟨"/api", []⟩ false "x" (some [("a", "1")])
        FieldsArg.noneF Method.POST).2.headers =
      [("Content-Type", HVal.str "application/x-www-form-urlencoded"),
       ("Content-Length", HVal.num 3)] := by
  constructor
  · decide
  · decide

/-- C3 (amended): all top-level fields of `this.httpOptions` are
unchanged by `request` (the options object itself is a fresh shallow
copy), but the nested `headers` object is shared with that copy: when the
method carries a body (POST/DELETE) and the serialized parameter string
is non-empty, `this.httpOptions.headers` gains (or overwrites)
`Content-Type: application/x-www-form-urlencoded` and `Content-Length`
set to the serialized string's length; otherwise every header keeps its
prior value. -/
theorem c3_headers_aliasing (hp : List (String × String)) (ho : HttpOptions) (br : Bool)
    (p : String) (ps : Option (List (String × String))) (fs : FieldsArg)
    (m : Method) (k : String) :
    (requestBuild hp ho br p ps fs m).2.path = ho.path ∧
    jsGet (requestBuild hp ho br p ps fs m).2.headers k =
      (if serializedParams hp ps fs ≠ "" ∧ requestHasData m = true then
        (if k = "Content-Type" then some (HVal.str "application/x-www-form-urlencoded")
         else if k = "Content-Length" then
           some (HVal.num (serializedParams hp ps fs).length)
         else jsGet ho.headers k)
       else jsGet ho.headers k) := by
  constructor
  · simp [requestBuild]
  · by_cases hc : serializedParams hp ps fs ≠ "" ∧ requestHasData m = true
    · rw [if_pos hc]
      have hb : (requestBuild hp ho br p ps fs m).2.headers =
          jsSet (jsSet ho.headers "Content-Type"
              (HVal.str "application/x-www-form-urlencoded"))
            "Content-Length" (HVal.num (serializedParams hp ps fs).length) := by
        simp only [requestBuild, serializedParams] at hc ⊢
        rw [if_pos hc]
      rw [hb, jsGet_jsSet, jsGet_jsSet]
      by_cases h1 : k = "Content-Type"
      · subst h1
        rw [if_neg (by decide), if_pos rfl, if_pos rfl]
      · by_cases h2 : k = "Content-Length"
        · subst h2
          rw [if_pos rfl, if_neg h1, if_pos rfl]
        · rw [if_neg (fun hh => h2 hh.symm), if_neg (fun hh => h1 hh.symm),
            if_neg h1, if_neg h2]
    · rw [if_neg hc]
      have hb : (requestBuild hp ho br p ps fs m).2.headers = ho.headers := by
        simp only [requestBuild, serializedParams] at hc ⊢
        rw [if_neg hc]
      rw [hb]

theorem requestBuild_body (hp : List (String × String)) (ho : HttpOptions) (br : Bool)
    (p : String) (ps : Option (List (String × String))) (fs : FieldsArg) (m : Method) :
    (requestBuild hp ho br p ps fs m).1.body =
      if serializedParams hp ps fs ≠ "" ∧ requestHasData m = true
      then some (serializedParams hp ps fs) else none := rfl

theorem requestBuild_reqHeaders (hp : List (String × String)) (ho : HttpOptions) (br : Bool)
    (p : String) (ps : Option (List (String × String))) (fs : FieldsArg) (m : Method) :
    (requestBuild hp ho br p ps fs m).1.headers =
      if serializedParams hp ps fs ≠ "" ∧ requestHasData m = true
      then jsSet (jsSet ho.headers "Content-Type"
            (HVal.str "application/x-www-form-urlencoded"))
          "Content-Length" (HVal.num (serializedParams hp ps fs).length)
      else ho.headers := rfl

theorem requestBuild_reqPath (hp : List (String × String)) (ho : HttpOptions) (br : Bool)
    (p : String) (ps : Option (List (String × String))) (fs : FieldsArg) (m : Method) :
    (requestBuild hp ho br p ps fs m).1.path =
      if serializedParams hp ps fs ≠ "" ∧ requestHasData m = false ∧ br = false
      then buildPath ho.path p ++ "?" ++ serializedParams hp ps fs
      else buildPath ho.path p := rfl

/-- C5: with a non-empty serialized parameter string, POST and DELETE
send the string as the request body under
`Content-Type: application/x-www-form-urlencoded` with `Content-Length`
equal to the string's UTF-8 byte length, while GET and PUT in a server
context append it to the request path after `?` and write no body. -/
theorem c5_body_vs_query (hp : List (String × String)) (ho : HttpOptions)
    (p : String) (ps : Option (List (String × String))) (fs : FieldsArg) (m : Method)
    (hqs : serializedParams hp ps fs ≠ "") :
    ((m = Method.POST ∨ m = Method.DELETE) →
      (requestBuild hp ho false p ps fs m).1.body = some (serializedParams hp ps fs) ∧
      jsGet (requestBuild hp ho false p ps fs m).1.headers "Content-Type" =
        some (HVal.str "application/x-www-form-urlencoded") ∧
      jsGet (requestBuild hp ho false p ps fs m).1.headers "Content-Length" =
        some (HVal.num (serializedParams hp ps fs).utf8ByteSize)) ∧
    ((m = Method.GET ∨ m = Method.PUT) →
      (requestBuild hp ho false p ps fs m).1.body = none ∧
      (requestBuild hp ho false p ps fs m).1.path =
        buildPath ho.path p ++ "?" ++ serializedParams hp ps fs) := by
  constructor
  · intro hm
    have hd : requestHasData m = true := by
      rcases hm with h | h <;> subst h <;> rfl
    refine ⟨?_, ?_, ?_⟩
    · rw [requestBuild_body, if_pos ⟨hqs, hd⟩]
    · rw [requestBuild_reqHeaders, if_pos ⟨hqs, hd⟩, jsGet_jsSet,
        if_neg (by decide), jsGet_jsSet, if_pos rfl]
    · rw [requestBuild_reqHeaders, if_pos ⟨hqs, hd⟩, jsGet_jsSet, if_pos rfl,
        serializedParams, qsStringify_byteSize]
  · intro hm
    have hd : requestHasData m = false := by
      rcases hm with h | h <;> subst h <;> rfl
    constructor
    · rw [requestBuild_body, if_neg]
      intro hc
      rw [hd] at hc
      exact Bool.false_ne_true hc.2
    · rw [requestBuild_reqPath, if_pos ⟨hqs, hd, rfl⟩]

/-- C5, witness: a POST with `a = 1` carries body `a=1` with the two
headers (`Content-Length` 3), a GET with the same parameters gets
`?a=1` appended to its path and no body. -/
theorem c5_witness :
    serializedParams [] (some [("a", "1")]) FieldsArg.noneF ≠ "" ∧
    ((requestBuild [] ⟨"/api", []⟩ false "task" (some [("a", "1")])
        FieldsArg.noneF Method.POST).1.body = some "a=1" ∧
     jsGet (requestBuild [] ⟨"/api", []⟩ false "task" (some [("a", "1")])
        FieldsArg.noneF Method.POST).1.headers "Content-Type" =
        some (HVal.str "application/x-www-form-urlencoded") ∧
     jsGet (requestBuild [] ⟨"/api", []⟩ false "task" (some [("a", "1")])
        FieldsArg.noneF Method.POST).1.headers "Content-Length" =
        some (HVal.num 3)) ∧
    ((requestBuild [] ⟨"/api", []⟩ false "task" (some [("a", "1")])
        FieldsArg.noneF Method.GET).1.body = none ∧
     (requestBuild [] ⟨"/api", []⟩ false "task" (some [("a", "1")])
        FieldsArg.noneF Method.GET).1.path = "/api/task?a=1") := by
  refine ⟨by decide, ?_, ?_⟩
  · have := (c5_body_vs_query [] ⟨"/api", []⟩ "task" (some [("a", "1")])
        FieldsArg.noneF Method.POST (by decide)).1 (Or.inl rfl)
    exact ⟨this.1, this.2.1, this.2.2⟩
  · have := (c5_body_vs_query [] ⟨"/api", []⟩ "task" (some [("a", "1")])
        FieldsArg.noneF Method.GET (by decide)).2 (Or.inl rfl)
    exact ⟨this.1, this.2⟩

/-- C6: whenever the normalized field list is non-empty, the parameter
key `fields` is set (after the defaults merge, so it wins over any
default) to the comma-join of the field names in order; a bare non-empty
string is wrapped as a one-element list, whose comma-join is the string
itself. -/
theorem c6_fields_param (hp : List (String × String))
    (ps : Option (List (String × String))) (fs : FieldsArg)
    (h : normFields fs ≠ []) :
    jsGet (effectiveParams hp ps fs) "fields" =
      some (String.intercalate "," (normFields fs)) ∧
    ∀ f : String, f ≠ "" → normFields (FieldsArg.strF f) = [f] ∧
      String.intercalate "," [f] = f := by
  constructor
  · have hlen : (normFields fs).length ≠ 0 := fun hh => h (List.length_eq_zero.mp hh)
    simp only [effectiveParams]
    rw [if_pos hlen, jsGet_jsSet, if_pos rfl]
  · intro f hf
    exact ⟨by simp [normFields, hf], rfl⟩

/-- C6, witness: fields `["name", "id"]` produce `fields=name,id`, even
against a conflicting instance default. -/
theorem c6_witness :
    normFields (FieldsArg.arrF ["name", "id"]) ≠ [] ∧
    jsGet (effectiveParams [("fields", "zzz")] (some [("a", "1")])
        (FieldsArg.arrF ["name", "id"])) "fields" = some "name,id" := by
  refine ⟨by decide, ?_⟩
  have := (c6_fields_param [("fields", "zzz")] (some [("a", "1")])
      (FieldsArg.arrF ["name", "id"]) (by decide)).1
  exact this

/-- C2, counterexample: on the body `{"error":"not found"}` the server
branch rejects with the whole parsed envelope object (line 122 is
`reject(data)`), not with the bare string `"not found"`. -/
theorem c2_counterexample :
    dispatchOutcome [Ev.chunk "\x7b\"error\":\"not found\"\x7d", Ev.done] =
      some (Outcome.reject (some (Js.obj [("error", Js.str "not found")]))) ∧
    dispatchOutcome [Ev.chunk "\x7b\"error\":\"not found\"\x7d", Ev.done] ≠
      some (Outcome.reject (some (Js.str "not found"))) := by
  constructor
  · rfl
  · intro hEq
    have h1 : Outcome.reject (some (Js.obj [("error", Js.str "not found")])) =
        Outcome.reject (some (Js.str "not found")) := Option.some.inj hEq
    have h2 := Option.some.inj (Outcome.reject.inj h1)
    exact Js.noConfusion h2

/-- C2 (amended): on a response body parsing to `{"error":"not found"}`
the server branch rejects with the full envelope object; only the
browser/JSONP callback rejects with the bare value `"not found"` of the
`error` field. -/
theorem c2_error_envelope (chunks : List String)
    (h : jsonParse (chunksBody chunks) = some (Js.obj [("error", Js.str "not found")])) :
    dispatchOutcome (chunks.map Ev.chunk ++ [Ev.done]) =
      some (Outcome.reject (some (Js.obj [("error", Js.str "not found")]))) ∧
    jsonpCallback (Js.obj [("error", Js.str "not found")]) =
      Outcome.reject (some (Js.str "not found")) := by
  constructor
  · rw [dispatch_chunks_done]
    unfold onEnd
    rw [h]
    rfl
  · rfl

/-- C2, witness for the amended claim at the single-chunk body
`{"error":"not found"}`. -/
theorem c2_witness :
    jsonParse (chunksBody ["\x7b\"error\":\"not found\"\x7d"]) =
      some (Js.obj [("error", Js.str "not found")]) ∧
    dispatchOutcome ([ "\x7b\"error\":\"not found\"\x7d" ].map Ev.chunk ++ [Ev.done]) =
      some (Outcome.reject (some (Js.obj [("error", Js.str "not found")]))) ∧
    jsonpCallback (Js.obj [("error", Js.str "not found")]) =
      Outcome.reject (some (Js.str "not found")) := by
  refine ⟨rfl, ?_⟩
  have := c2_error_envelope ["\x7b\"error\":\"not found\"\x7d"] rfl
  exact ⟨this.1, this.2⟩

/-- C7: when the accumulated body text is not valid JSON, the promise
rejects with the raw body text itself as a string (line 118 is
`reject(body)`), and does not resolve. -/
theorem c7_parse_failure (chunks : List String)
    (h : jsonParse (chunksBody chunks) = none) :
    dispatchOutcome (chunks.map Ev.chunk ++ [Ev.done]) =
      some (Outcome.reject (some (Js.str (chunksBody chunks)))) := by
  rw [dispatch_chunks_done]
  unfold onEnd
  rw [h]

/-- C7, witness at the body `not-json`. -/
theorem c7_witness :
    jsonParse (chunksBody ["not-json"]) = none ∧
    dispatchOutcome ([ "not-json" ].map Ev.chunk ++ [Ev.done]) =
      some (Outcome.reject (some (Js.str "not-json"))) := by
  refine ⟨rfl, ?_⟩
  have := c7_parse_failure ["not-json"] rfl
  exact this.trans (by rfl)

theorem settleAttempts_of_chunksOnly (pre : List Ev) (body : String)
    (hpre : ∀ ev ∈ pre, ∃ s, ev = Ev.chunk s) :
    settleAttempts pre body = [] := by
  induction pre generalizing body with
  | nil => rfl
  | cons ev t ih =>
    obtain ⟨s, rfl⟩ := hpre ev (List.mem_cons_self _ _)
    exact ih (body ++ s) (fun e he => hpre e (List.mem_cons_of_mem _ he))

/-- C8: a transport error event occurring before any response completes
rejects the promise with the underlying error value, whatever events
follow; and once the promise has settled, no later event changes the
settlement — every failure settles the promise exactly once. -/
theorem c8_transport_error :
    (∀ (pre rest : List Ev) (e : Js), (∀ ev ∈ pre, ∃ s, ev = Ev.chunk s) →
      dispatchOutcome (pre ++ Ev.fail e :: rest) = some (Outcome.reject (some e))) ∧
    (∀ (evs more : List Ev), (dispatchOutcome evs).isSome = true →
      dispatchOutcome (evs ++ more) = dispatchOutcome evs) := by
  constructor
  · intro pre rest e hpre
    unfold dispatchOutcome
    rw [settleAttempts_append, settleAttempts_of_chunksOnly pre "" hpre]
    rfl
  · intro evs more hsome
    unfold dispatchOutcome at hsome ⊢
    rw [settleAttempts_append]
    cases hl : settleAttempts evs "" with
    | nil => rw [hl] at hsome; simp at hsome
    | cons a t => rfl

/-- C8, witness: an immediate transport error `"boom"` rejects with
`"boom"` even though a response end follows, and a settled dispatch is
unchanged by further events. -/
theorem c8_witness :
    dispatchOutcome ([] ++ Ev.fail (Js.str "boom") :: [Ev.done]) =
      some (Outcome.reject (some (Js.str "boom"))) ∧
    (dispatchOutcome [Ev.done]).isSome = true ∧
    dispatchOutcome ([Ev.done] ++ [Ev.done]) = dispatchOutcome [Ev.done] := by
  refine ⟨?_, rfl, ?_⟩
  · exact c8_transport_error.1 [] [Ev.done] (Js.str "boom")
      (fun ev h => absurd h (List.not_mem_nil ev))
  · exact c8_transport_error.2 [Ev.done] [Ev.done] rfl

/-- C9: a response body parsing to an envelope with a `data` field and
no truthy `error` field resolves the promise with the envelope's `data`
field. -/
theorem c9_resolves_data (chunks : List String) (d : Js)
    (h : jsonParse (chunksBody chunks) = some d)
    (hd : (jsField d "data").isSome = true)
    (he : truthyO (jsField d "error") = false) :
    dispatchOutcome (chunks.map Ev.chunk ++ [Ev.done]) =
      some (Outcome.resolve (jsField d "data")) := by
  rw [dispatch_chunks_done]
  unfold onEnd
  rw [h]
  simp [he]

/-- C9, witness: the body `{"data":{"id":1}}` resolves with `{"id":1}`. -/
theorem c9_witness :
    jsonParse (chunksBody ["\x7b\"data\":\x7b\"id\":1\x7d\x7d"]) =
      some (Js.obj [("data", Js.obj [("id", Js.num 1 0)])]) ∧
    dispatchOutcome ([ "\x7b\"data\":\x7b\"id\":1\x7d\x7d" ].map Ev.chunk ++ [Ev.done]) =
      some (Outcome.resolve (some (Js.obj [("id", Js.num 1 0)]))) := by
  refine ⟨rfl, ?_⟩
  exact c9_resolves_data ["\x7b\"data\":\x7b\"id\":1\x7d\x7d"]
    (Js.obj [("data", Js.obj [("id", Js.num 1 0)])]) rfl rfl rfl

/-- C10: an envelope whose `error` field is present but falsy (empty
string, zero, null) is treated as success: the server branch and the
browser/JSONP callback both resolve with the `data` field (possibly
`undefined`) instead of rejecting, because the check on line 121/90 is on
truthiness of `data.error`. -/
theorem c10_falsy_error (d : Js)
    (hp : (jsField d "error").isSome = true)
    (he : truthyO (jsField d "error") = false) :
    (∀ chunks, jsonParse (chunksBody chunks) = some d →
      dispatchOutcome (chunks.map Ev.chunk ++ [Ev.done]) =
        some (Outcome.resolve (jsField d "data"))) ∧
    jsonpCallback d = Outcome.resolve (jsField d "data") := by
  constructor
  · intro chunks h
    rw [dispatch_chunks_done]
    unfold onEnd
    rw [h]
    simp [he]
  · unfold jsonpCallback
    simp [he]

/-- C10, witness: the body `{"error":""}` resolves (with `undefined`,
there being no `data` field) in both branches. -/
theorem c10_witness :
    (jsField (Js.obj [("error", Js.str "")]) "error").isSome = true ∧
    truthyO (jsField (Js.obj [("error", Js.str "")]) "error") = false ∧
    dispatchOutcome ([ "\x7b\"error\":\"\"\x7d" ].map Ev.chunk ++ [Ev.done]) =
      some (Outcome.resolve none) ∧
    jsonpCallback (Js.obj [("error", Js.str "")]) = Outcome.resolve none := by
  refine ⟨rfl, rfl, ?_, ?_⟩
  · exact (c10_falsy_error (Js.obj [("error", Js.str "")]) rfl rfl).1
      ["\x7b\"error\":\"\"\x7d"] rfl
  · exact (c10_falsy_error (Js.obj [("error", Js.str "")]) rfl rfl).2
